import Mathlib

/-!
# Verification of the point-isolation algorithm (larexamples)

Shallow embedding of
`larexamples/Algorithms/RemoveIsolatedSpacePoints/PointIsolationAlg.h`.

Modelling conventions:
* C++ floating-point (`double`/`float`/`Coord`) coordinates are modelled as
  exact reals `ℝ`.
* `size_t` and `ptrdiff_t` are modelled as `ℕ` and `ℤ`; the index arithmetic
  of `GridContainerIndices` is modelled without the 2^64 wraparound, with
  which it agrees for every grid of fewer than 2^63 cells.
* C++ exceptions are modelled with `Except`; the thrown message
  `"Point out of the volume (x = ...)"` is modelled as a structured error
  carrying the axis and the offending coordinate value.
* The conversion `double -> ptrdiff_t` (used by `SpacePartition::cellNumber`)
  truncates toward zero, modelled by `truncToInt`.  The conversion
  `double -> size_t` in `details::diceVolume` is modelled with
  `Int.toNat` (the C++ conversion is undefined for negative values).
* Grid cells store iterators into the input sequence; they are modelled as
  the corresponding indices (`ℕ`), so iterator-address equality used by
  `isPointIsolatedFrom` becomes index equality.
-/

open scoped Classical

noncomputable section

/-- `CoordRange<Coord>`: an interval given by `lower` and `upper` bounds. -/
structure CoordRange where
  lower : ℝ
  upper : ℝ

/-- `CoordRange::contains`: `(lower <= c) && (upper >= c)`. -/
def CoordRange.contains (r : CoordRange) (c : ℝ) : Prop :=
  r.lower ≤ c ∧ r.upper ≥ c

/-- `CoordRange::empty`: `lower == upper`. -/
def CoordRange.isEmpty (r : CoordRange) : Prop := r.lower = r.upper

/-- `CoordRange::valid`: `lower <= upper`. -/
def CoordRange.valid (r : CoordRange) : Prop := r.lower ≤ r.upper

/-- `CoordRange::size`: `upper - lower` (no check). -/
def CoordRange.size (r : CoordRange) : ℝ := r.upper - r.lower

/-- `CoordRange::offset`: `c - lower`. -/
def CoordRange.offset (r : CoordRange) (c : ℝ) : ℝ := c - r.lower

/-- A 3D point, as accessed through `PositionExtractor` (x, y, z). -/
structure Point where
  x : ℝ
  y : ℝ
  z : ℝ

instance : Inhabited Point := ⟨⟨0, 0, 0⟩⟩

/-- C++ conversion from a floating-point value to a signed integer type:
truncation toward zero. -/
def truncToInt (r : ℝ) : ℤ := if 0 ≤ r then Int.floor r else -Int.floor (-r)

/-- `GridContainerIndices`: the index manager of the 3D grid, holding the
number of cells on each dimension (`dims`). -/
structure GridContainerIndices where
  dimX : ℕ
  dimY : ℕ
  dimZ : ℕ

/-- `GridContainerIndices::size`: total number of cells `x*y*z`. -/
def GridContainerIndices.size (g : GridContainerIndices) : ℕ :=
  g.dimX * g.dimY * g.dimZ

/-- `GridContainerIndices::index`: row-major flattening
`id[0]*sizes[1] + id[1]*sizes[2] + id[2]` with `sizes[1] = dimY*dimZ` and
`sizes[2] = dimZ` (no bounds check). -/
def GridContainerIndices.index (g : GridContainerIndices) (id : ℤ × ℤ × ℤ) : ℤ :=
  id.1 * ((g.dimY : ℤ) * (g.dimZ : ℤ)) + id.2.1 * (g.dimZ : ℤ) + id.2.2

/-- `GridContainerIndices::offset`: `index(cellID) - index(origin)`. -/
def GridContainerIndices.offset (g : GridContainerIndices)
    (origin cellID : ℤ × ℤ × ℤ) : ℤ :=
  g.index cellID - g.index origin

/-- `GridContainerIndices::has`: `(index >= 0) && (index < size())`. -/
def GridContainerIndices.has (g : GridContainerIndices) (i : ℤ) : Prop :=
  0 ≤ i ∧ i < (g.size : ℤ)

/-- `GridContainerIndices::hasX`. -/
def GridContainerIndices.hasX (g : GridContainerIndices) (i : ℤ) : Prop :=
  0 ≤ i ∧ i < (g.dimX : ℤ)

/-- `GridContainerIndices::hasY`. -/
def GridContainerIndices.hasY (g : GridContainerIndices) (i : ℤ) : Prop :=
  0 ≤ i ∧ i < (g.dimY : ℤ)

/-- `GridContainerIndices::hasZ`. -/
def GridContainerIndices.hasZ (g : GridContainerIndices) (i : ℤ) : Prop :=
  0 ≤ i ∧ i < (g.dimZ : ℤ)

/-- `details::diceVolume`: per axis `size_t(ceil(range.size() / diceSize))`. -/
def diceVolume (rangeX rangeY rangeZ : CoordRange) (diceSize : ℝ) :
    GridContainerIndices :=
  ⟨(Int.ceil (rangeX.size / diceSize)).toNat,
   (Int.ceil (rangeY.size / diceSize)).toNat,
   (Int.ceil (rangeZ.size / diceSize)).toNat⟩

/-- Axis tag carried by an out-of-volume error. -/
inductive Axis
  | x
  | y
  | z
deriving DecidableEq

/-- The `std::runtime_error("Point out of the volume (<axis> = <value>)")`
thrown by `SpacePartition::pointIndex`, as a structured value. -/
structure OutOfVolumeError where
  axis : Axis
  value : ℝ

/-- `SpacePartition`: the configuration part (cell size and the three axis
ranges).  The grid contents are threaded explicitly as `List (List ℕ)`
(one list of stored point indices per cell, in row-major cell order). -/
structure SpacePartition where
  cellSize : ℝ
  xRange : CoordRange
  yRange : CoordRange
  zRange : CoordRange

/-- The grid dimensions, as computed by the `SpacePartition` constructor:
`details::diceVolume(xRange, yRange, zRange, cellSize)`. -/
def SpacePartition.indexer (p : SpacePartition) : GridContainerIndices :=
  diceVolume p.xRange p.yRange p.zRange p.cellSize

/-- `SpacePartition::cellNumber`: `CellDimIndex_t(range.offset(c) / cellSize)`
(the cast truncates toward zero). -/
def SpacePartition.cellNumber (p : SpacePartition) (c : ℝ) (range : CoordRange) : ℤ :=
  truncToInt (range.offset c / p.cellSize)

/-- `SpacePartition::pointIndex`: computes the per-axis cell numbers, checks
them in x, y, z order, and returns the flat cell index; fails with an
out-of-volume error carrying the axis and coordinate value. -/
def SpacePartition.pointIndex (p : SpacePartition) (point : Point) :
    Except OutOfVolumeError ℤ :=
  let xc := p.cellNumber point.x p.xRange
  if p.indexer.hasX xc then
    let yc := p.cellNumber point.y p.yRange
    if p.indexer.hasY yc then
      let zc := p.cellNumber point.z p.zRange
      if p.indexer.hasZ zc then
        .ok (p.indexer.index (xc, yc, zc))
      else .error ⟨Axis.z, point.z⟩
    else .error ⟨Axis.y, point.y⟩
  else .error ⟨Axis.x, point.x⟩

/-- The loop body of `SpacePartition::fill`: insert each (index, point) pair
in turn into its cell, stopping at the first point whose `pointIndex`
fails. -/
def SpacePartition.fillFrom (p : SpacePartition) (cells : List (List ℕ)) :
    List (ℕ × Point) → Except OutOfVolumeError (List (List ℕ))
  | [] => .ok cells
  | (i, pt) :: rest =>
    match p.pointIndex pt with
    | .error e => .error e
    | .ok idx =>
      p.fillFrom (cells.set idx.toNat ((cells.getD idx.toNat []) ++ [i])) rest

/-- The iterators `begin .. end` paired with their distance from `begin`. -/
def enumerateFrom (k : ℕ) : List Point → List (ℕ × Point)
  | [] => []
  | pt :: pts => (k, pt) :: enumerateFrom (k + 1) pts

/-- `SpacePartition::fill(begin, end)`, starting from the freshly allocated
grid (`size()` empty cells, as allocated by the `GridContainer`
constructor). -/
def SpacePartition.fill (p : SpacePartition) (points : List Point) :
    Except OutOfVolumeError (List (List ℕ)) :=
  p.fillFrom (List.replicate p.indexer.size []) (enumerateFrom 0 points)

/-- `PointIsolationAlg<Coord>::Configuration_t`. -/
structure Configuration where
  rangeX : CoordRange
  rangeY : CoordRange
  rangeZ : CoordRange
  radius2 : ℝ
  maxMemory : ℕ := 100 * 1048576

/-- `PointIsolationAlg::maximumOptimalCellSize`:
`radius * 2. / std::sqrt(3.)`. -/
def maximumOptimalCellSize (radius : ℝ) : ℝ := radius * 2 / Real.sqrt 3

/-- `PointIsolationAlg::closeEnough`: squared distance compared to the
configured `radius2` with `<=`. -/
def closeEnough (cfg : Configuration) (A B : Point) : Prop :=
  (A.x - B.x) ^ 2 + (A.y - B.y) ^ 2 + (A.z - B.z) ^ 2 ≤ cfg.radius2

/-- `sizeof(SpacePartition<PointIter>::Cell_t)` = `sizeof(std::vector<...>)`
= 24 bytes on an LP64 platform. -/
def sizeofCell : ℕ := 24

/-- `R = std::sqrt(config.radius2)`. -/
def isolationRadius (cfg : Configuration) : ℝ := Real.sqrt cfg.radius2

/-- The cell size tried by the `computeCellSize` doubling loop after `k`
doublings of the initial `maximumOptimalCellSize(R)`. -/
def cellSizeAfter (cfg : Configuration) (k : ℕ) : ℝ :=
  maximumOptimalCellSize (isolationRadius cfg) * 2 ^ k

/-- The stopping condition of the `computeCellSize` do-while loop at attempt
`k`: the grid has at most one cell, or its memory fits the budget. -/
def stopDoubling (cfg : Configuration) (k : ℕ) : Prop :=
  (diceVolume cfg.rangeX cfg.rangeY cfg.rangeZ (cellSizeAfter cfg k)).size ≤ 1 ∨
  (diceVolume cfg.rangeX cfg.rangeY cfg.rangeZ (cellSizeAfter cfg k)).size *
    sizeofCell < cfg.maxMemory

/-- The doubling loop always terminates: once the cell size exceeds every
range size, every dimension is at most 1. -/
def stopDoubling_exists (cfg : Configuration) : ∃ k, stopDoubling cfg k := by
  set c0 := maximumOptimalCellSize (isolationRadius cfg) with hc0
  rcases eq_or_ne c0 0 with h0 | h0
  · refine ⟨0, Or.inl ?_⟩
    simp only [cellSizeAfter, ← hc0, h0, zero_mul, diceVolume,
      GridContainerIndices.size, CoordRange.size, div_zero, Int.ceil_zero,
      Int.toNat_zero, mul_zero, zero_mul]
    exact Nat.zero_le 1
  · -- pick k with |c0| * 2^k larger than every |range size|
    set M : ℝ := max (max |cfg.rangeX.size| |cfg.rangeY.size|) |cfg.rangeZ.size|
      with hM
    obtain ⟨n, hn⟩ := exists_nat_gt (M / |c0|)
    refine ⟨n, Or.inl ?_⟩
    have hc0pos : 0 < |c0| := abs_pos.mpr h0
    have h2n : (n : ℝ) < 2 ^ n := by
      calc (n : ℝ) < ((2 ^ n : ℕ) : ℝ) := by exact_mod_cast Nat.lt_two_pow n
      _ = 2 ^ n := by push_cast; ring
    have hM2 : M < |c0| * 2 ^ n := by
      have h1 : M / |c0| < 2 ^ n := lt_trans hn h2n
      calc M = (M / |c0|) * |c0| := by field_simp
      _ < 2 ^ n * |c0| := by
          exact mul_lt_mul_of_pos_right h1 hc0pos
      _ = |c0| * 2 ^ n := by ring
    have key : ∀ s : ℝ, |s| ≤ M →
        (Int.ceil (s / cellSizeAfter cfg n)).toNat ≤ 1 := by
      intro s hs
      have habs : |s / cellSizeAfter cfg n| ≤ 1 := by
        rw [abs_div]
        rw [div_le_one (by
          calc (0:ℝ) < |c0| * 2 ^ n := by positivity
          _ = |c0 * 2 ^ n| := by
              rw [abs_mul, abs_of_nonneg (by positivity : (0:ℝ) ≤ (2:ℝ) ^ n)]
          _ = |cellSizeAfter cfg n| := by rw [cellSizeAfter, ← hc0])]
        calc |s| ≤ M := hs
        _ ≤ |c0| * 2 ^ n := le_of_lt hM2
        _ = |c0 * 2 ^ n| := by
            rw [abs_mul, abs_of_nonneg (by positivity : (0:ℝ) ≤ (2:ℝ) ^ n)]
        _ = |cellSizeAfter cfg n| := by rw [cellSizeAfter, ← hc0]
      have hle : s / cellSizeAfter cfg n ≤ 1 := le_trans (le_abs_self _) habs
      have : Int.ceil (s / cellSizeAfter cfg n) ≤ 1 := by
        rw [show (1:ℤ) = ((1:ℕ):ℤ) by norm_num] at *
        exact Int.ceil_le.mpr (by exact_mod_cast hle)
      exact Int.toNat_le.mpr this
    have hx := key cfg.rangeX.size
      (le_trans (le_max_left _ _) (le_max_left _ _))
    have hy := key cfg.rangeY.size
      (le_trans (le_max_right _ _) (le_max_left _ _))
    have hz := key cfg.rangeZ.size (le_max_right _ _)
    simp only [diceVolume, GridContainerIndices.size]
    calc (Int.ceil (cfg.rangeX.size / cellSizeAfter cfg n)).toNat *
          (Int.ceil (cfg.rangeY.size / cellSizeAfter cfg n)).toNat *
          (Int.ceil (cfg.rangeZ.size / cellSizeAfter cfg n)).toNat
        ≤ 1 * 1 * 1 := Nat.mul_le_mul (Nat.mul_le_mul hx hy) hz
    _ = 1 := by norm_num

/-- `PointIsolationAlg::computeCellSize`: start from
`maximumOptimalCellSize(R)`; if the memory budget is 0 return it at once;
otherwise double it until the grid has at most one cell or its memory cost
is below the budget (the do-while loop returns the cell size of the first
attempt satisfying the stopping condition). -/
def computeCellSize (cfg : Configuration) : ℝ :=
  if cfg.maxMemory = 0 then maximumOptimalCellSize (isolationRadius cfg)
  else cellSizeAfter cfg (Nat.find (stopDoubling_exists cfg))

/-- The values `-ext .. ext` scanned by each of the three loops of
`buildNeighborhood`. -/
def symRange (ext : ℕ) : List ℤ :=
  (List.range (2 * ext + 1)).map (fun k : ℕ => (k : ℤ) - (ext : ℤ))

/-- `PointIsolationAlg::buildNeighborhood`: all flat-index offsets of the
cube `[-ext, ext]^3` of cell deltas, the origin excluded, in lexicographic
loop order. -/
def buildNeighborhood (indexer : GridContainerIndices) (neighExtent : ℕ) :
    List ℤ :=
  (symRange neighExtent).flatMap fun ixOfs =>
    (symRange neighExtent).flatMap fun iyOfs =>
      (symRange neighExtent).filterMap fun izOfs =>
        if ixOfs = 0 ∧ iyOfs = 0 ∧ izOfs = 0 then none
        else some (indexer.offset (0, 0, 0) (ixOfs, iyOfs, izOfs))

/-- The neighbourhood list used by `removeIsolatedPoints` (lines 977-984):
the base list from `buildNeighborhood`, and, when the cell is not contained
in the isolation sphere, the elements inserted at the front by
`neighList.insert(neighList.begin(), { 0, 0, 0 })` — an initializer list of
three zero offsets, since `NeighAddresses_t` is a vector of
`CellIndexOffset_t`. -/
def neighborhoodList (indexer : GridContainerIndices) (neighExtent : ℕ)
    (cellContained : Prop) : List ℤ :=
  if cellContained then buildNeighborhood indexer neighExtent
  else 0 :: 0 :: 0 :: buildNeighborhood indexer neighExtent

/-- `PointIsolationAlg::isPointIsolatedFrom`: point `i` is isolated from a
cell's contents iff no stored point is close enough, the comparison of
addresses `&point != &*otherPointPtr` being index inequality. -/
def isPointIsolatedFrom (cfg : Configuration) (pts : List Point) (i : ℕ)
    (otherPoints : List ℕ) : Prop :=
  ∀ j ∈ otherPoints,
    ¬(closeEnough cfg (pts.getD i default) (pts.getD j default) ∧ j ≠ i)

/-- `PointIsolationAlg::isPointIsolatedWithinNeighborhood`: scan every
neighbourhood offset, skipping those whose cell index fails `has`, and
require isolation from every scanned cell. -/
def isPointIsolatedWithinNeighborhood (cfg : Configuration) (pts : List Point)
    (cells : List (List ℕ)) (indexer : GridContainerIndices)
    (cellIndex : ℕ) (i : ℕ) (neighList : List ℤ) : Prop :=
  ∀ neighOfs ∈ neighList,
    indexer.has ((cellIndex : ℤ) + neighOfs) →
      isPointIsolatedFrom cfg pts i
        (cells.getD ((cellIndex : ℤ) + neighOfs).toNat [])

/-- `cellContainedInIsolationSphere`
= `(cellSize <= maximumOptimalCellSize(R))`. -/
def cellContainedInIsolationSphere (cfg : Configuration) : Prop :=
  computeCellSize cfg ≤ maximumOptimalCellSize (isolationRadius cfg)

/-- `neighExtent = (int) std::ceil(R / cellSize)` (nonnegative since both
`R` and the cell size are). -/
def neighExtentOf (cfg : Configuration) : ℕ :=
  (Int.ceil (isolationRadius cfg / computeCellSize cfg)).toNat

/-- The `SpacePartition` built by `removeIsolatedPoints` from the configured
volume and the computed cell size. -/
def partitionOf (cfg : Configuration) : SpacePartition :=
  ⟨computeCellSize cfg, cfg.rangeX, cfg.rangeY, cfg.rangeZ⟩

/-- The main loop of `removeIsolatedPoints` (lines 994-1028): for each cell
in index order, if the cell is contained in the isolation sphere and holds
more than one point, every stored point is non-isolated; otherwise each
stored point is kept iff it is not isolated within the neighbourhood. -/
def collectNonIsolated (cfg : Configuration) (pts : List Point)
    (cells : List (List ℕ)) : List ℕ :=
  (List.range (partitionOf cfg).indexer.size).flatMap fun cellIndex =>
    let cellPoints := cells.getD cellIndex []
    if cellContainedInIsolationSphere cfg ∧ 1 < cellPoints.length then
      cellPoints
    else
      cellPoints.filter fun i =>
        decide (¬ isPointIsolatedWithinNeighborhood cfg pts cells
          (partitionOf cfg).indexer cellIndex i
          (neighborhoodList (partitionOf cfg).indexer (neighExtentOf cfg)
            (cellContainedInIsolationSphere cfg)))

/-- `PointIsolationAlg::removeIsolatedPoints`: build the partition with the
computed cell size, fill it (propagating any out-of-volume error), and
collect the non-isolated indices cell by cell. -/
def removeIsolatedPoints (cfg : Configuration) (pts : List Point) :
    Except OutOfVolumeError (List ℕ) :=
  match (partitionOf cfg).fill pts with
  | .error e => .error e
  | .ok cells => .ok (collectNonIsolated cfg pts cells)

/-- `PointIsolationAlg::bruteRemoveIsolatedPoints`: index `i` is kept iff
some other iterator position `j` (`it == ioth` excluded) is close enough. -/
def bruteRemoveIsolatedPoints (cfg : Configuration) (pts : List Point) :
    List ℕ :=
  (List.range pts.length).filter fun i =>
    (List.range pts.length).any fun j =>
      decide (j ≠ i ∧
        closeEnough cfg (pts.getD i default) (pts.getD j default))

/-- The individual error reports collected by `validateConfiguration`. -/
inductive ConfigurationError
  | invalidRadius2 (r2 : ℝ)
  | invalidRangeX (r : CoordRange)
  | invalidRangeY (r : CoordRange)
  | invalidRangeZ (r : CoordRange)

/-- `PointIsolationAlg::validateConfiguration`: the list of error reports,
one per invalid field, in the order checked (radius², x, y, z); the C++
function throws a message concatenating them all iff the list is
non-empty. -/
def validateConfiguration (cfg : Configuration) : List ConfigurationError :=
  (if cfg.radius2 < 0 then [ConfigurationError.invalidRadius2 cfg.radius2]
   else []) ++
  (if ¬ cfg.rangeX.valid then [ConfigurationError.invalidRangeX cfg.rangeX]
   else []) ++
  (if ¬ cfg.rangeY.valid then [ConfigurationError.invalidRangeY cfg.rangeY]
   else []) ++
  (if ¬ cfg.rangeZ.valid then [ConfigurationError.invalidRangeZ cfg.rangeZ]
   else [])

/-! ## Concrete test fixtures

Configurations and point sets at which the algorithm is evaluated exactly.
`radius2` values of the form `3*s^2/4` give the rational cell size `s`,
since `maximumOptimalCellSize(sqrt(3*s^2/4)) = s`. -/

/-- Volume `[0,1]^3`, isolation radius `sqrt(3)/2 ≈ 0.866`, default memory. -/
def cfgUnit : Configuration := ⟨⟨0, 1⟩, ⟨0, 1⟩, ⟨0, 1⟩, 3/4, 100 * 1048576⟩

/-- Two points in the single grid cell of `cfgUnit`, at squared distance
`3*(8/10)^2 = 1.92 > 3/4`. -/
def ptsUnit : List Point := [⟨1/10, 1/10, 1/10⟩, ⟨9/10, 9/10, 9/10⟩]

/-- Volume `[0,2]^3`, isolation radius `sqrt(3)/2 ≈ 0.866` (cell size 1). -/
def cfgTwoA : Configuration := ⟨⟨0, 2⟩, ⟨0, 2⟩, ⟨0, 2⟩, 3/4, 100 * 1048576⟩

/-- Volume `[0,2]^3`, isolation radius `3*sqrt(3)/4 ≈ 1.299` (cell size
3/2); same volume as `cfgTwoA` with a strictly larger radius. -/
def cfgTwoB : Configuration := ⟨⟨0, 2⟩, ⟨0, 2⟩, ⟨0, 2⟩, 27/16, 100 * 1048576⟩

/-- Two points at squared distance `3*(8/10)^2 = 1.92`: in the same cell of
the `cfgTwoA` grid, in different cells of the `cfgTwoB` grid. -/
def ptsTwo : List Point := [⟨11/10, 11/10, 11/10⟩, ⟨19/10, 19/10, 19/10⟩]

/-- A single point strictly inside the `cfgUnit` volume. -/
def ptsOne : List Point := [⟨1/2, 1/2, 1/2⟩]

/-- The `SpacePartition` of the out-of-volume scenario: cell size 1 over
`[0,1]^3`. -/
def partSmall : SpacePartition := ⟨1, ⟨0, 1⟩, ⟨0, 1⟩, ⟨0, 1⟩⟩

/-- A point outside the `partSmall` volume on the x axis (x = -1/2 < 0). -/
def ptOutside : Point := ⟨-1/2, 1/2, 1/2⟩

/-- Grid contents after filling `ptsTwo` into the `cfgTwoA` partition:
both points land in cell (1,1,1), flat index 7. -/
def cellsTwoA : List (List ℕ) := [[], [], [], [], [], [], [], [0, 1]]

/-- Grid contents after filling `ptsTwo` into the `cfgTwoB` partition:
the points land in cells (0,0,0) and (1,1,1), flat indices 0 and 7. -/
def cellsTwoB : List (List ℕ) := [[0], [], [], [], [], [], [], [1]]


/-! ## Helper lemmas: evaluating casts, floors and square roots -/

lemma truncToInt_nat_eq {r : ℝ} {n : ℕ} (h1 : (n : ℝ) ≤ r) (h2 : r < n + 1) :
    truncToInt r = n := by
  have h0 : (0:ℝ) ≤ r := le_trans (by positivity) h1
  rw [truncToInt, if_pos h0,
    Int.floor_eq_iff.mpr ⟨by exact_mod_cast h1, by push_cast; exact h2⟩]

lemma truncToInt_negFrac {r : ℝ} (h1 : -1 < r) (h2 : r < 0) :
    truncToInt r = 0 := by
  rw [truncToInt, if_neg (not_le.mpr h2)]
  have h : Int.floor (-r) = 0 := by
    rw [Int.floor_eq_iff]
    constructor
    · push_cast; linarith
    · push_cast; linarith
  simp [h]

lemma ceilToNat_eq {r : ℝ} {n : ℕ} (h1 : (n : ℝ) - 1 < r) (h2 : r ≤ n) :
    (Int.ceil r).toNat = n := by
  have h : Int.ceil r = n := by
    rw [Int.ceil_eq_iff]
    constructor
    · push_cast; exact h1
    · push_cast; exact h2
  simp [h]

lemma sqrt3_pos : 0 < Real.sqrt 3 := Real.sqrt_pos.mpr (by norm_num)

lemma sqrt3_ne : Real.sqrt 3 ≠ 0 := ne_of_gt sqrt3_pos

lemma sqrt3_le_2 : Real.sqrt 3 ≤ 2 := by
  rw [show (2:ℝ) = Real.sqrt (2^2) by rw [Real.sqrt_sq]; norm_num]
  exact Real.sqrt_le_sqrt (by norm_num)

lemma sqrt_34 : Real.sqrt (3/4) = Real.sqrt 3 / 2 := by
  rw [show (3/4 : ℝ) = 3 * (1/2)^2 by norm_num, Real.sqrt_mul (by norm_num),
    Real.sqrt_sq (by norm_num)]
  ring

lemma sqrt_2716 : Real.sqrt (27/16) = Real.sqrt 3 * (3/4) := by
  rw [show (27/16 : ℝ) = 3 * (3/4)^2 by norm_num, Real.sqrt_mul (by norm_num),
    Real.sqrt_sq (by norm_num)]

lemma mocs_34 : maximumOptimalCellSize (Real.sqrt (3/4)) = 1 := by
  rw [maximumOptimalCellSize, sqrt_34]
  field_simp

lemma mocs_2716 : maximumOptimalCellSize (Real.sqrt (27/16)) = 3/2 := by
  rw [maximumOptimalCellSize, sqrt_2716]
  field_simp
  ring

/-- If the stopping condition already holds at the first attempt, the
doubling loop returns the initial cell size. -/
lemma computeCellSize_eq_init {cfg : Configuration} (hmem : cfg.maxMemory ≠ 0)
    (h0 : stopDoubling cfg 0) :
    computeCellSize cfg = maximumOptimalCellSize (isolationRadius cfg) := by
  rw [computeCellSize, if_neg hmem, (Nat.find_eq_zero _).mpr h0, cellSizeAfter,
    pow_zero, mul_one]

/-- Evaluation rule for a successful `pointIndex`. -/
lemma pointIndex_ok (p : SpacePartition) (pt : Point) (xc yc zc : ℤ)
    (hx : p.cellNumber pt.x p.xRange = xc)
    (hy : p.cellNumber pt.y p.yRange = yc)
    (hz : p.cellNumber pt.z p.zRange = zc)
    (hhx : p.indexer.hasX xc) (hhy : p.indexer.hasY yc)
    (hhz : p.indexer.hasZ zc) :
    p.pointIndex pt = .ok (p.indexer.index (xc, yc, zc)) := by
  rw [SpacePartition.pointIndex]
  simp only [hx, hy, hz]
  rw [if_pos hhx, if_pos hhy, if_pos hhz]

/-! ### Evaluation at `cfgUnit` -/

lemma dims_unit :
    diceVolume cfgUnit.rangeX cfgUnit.rangeY cfgUnit.rangeZ 1 = ⟨1, 1, 1⟩ := by
  simp only [diceVolume, cfgUnit]
  norm_num
  apply ceilToNat_eq <;> norm_num [CoordRange.size]

lemma stop0_unit : stopDoubling cfgUnit 0 := by
  have hc : cellSizeAfter cfgUnit 0 = 1 := by
    rw [cellSizeAfter, pow_zero, mul_one,
      show isolationRadius cfgUnit = Real.sqrt (3/4) from rfl, mocs_34]
  exact Or.inl (by rw [hc, dims_unit]; norm_num [GridContainerIndices.size])

lemma cellSize_unit : computeCellSize cfgUnit = 1 := by
  rw [computeCellSize_eq_init (by norm_num [cfgUnit]) stop0_unit,
    show isolationRadius cfgUnit = Real.sqrt (3/4) from rfl, mocs_34]

lemma indexer_unit : (partitionOf cfgUnit).indexer = ⟨1, 1, 1⟩ := by
  rw [show (partitionOf cfgUnit).indexer
      = diceVolume cfgUnit.rangeX cfgUnit.rangeY cfgUnit.rangeZ
          (computeCellSize cfgUnit) from rfl, cellSize_unit, dims_unit]

lemma contained_unit : cellContainedInIsolationSphere cfgUnit := by
  rw [cellContainedInIsolationSphere, cellSize_unit,
    show isolationRadius cfgUnit = Real.sqrt (3/4) from rfl, mocs_34]

lemma fill_unit : (partitionOf cfgUnit).fill ptsUnit = .ok [[0, 1]] := by
  have hp0 : (partitionOf cfgUnit).pointIndex ⟨1/10, 1/10, 1/10⟩ = .ok 0 := by
    have hc : (partitionOf cfgUnit).cellNumber (1/10) ⟨0, 1⟩ = 0 := by
      rw [SpacePartition.cellNumber,
        show (partitionOf cfgUnit).cellSize = 1 from cellSize_unit,
        CoordRange.offset]
      exact_mod_cast truncToInt_nat_eq (n := 0) (by norm_num) (by norm_num)
    have := pointIndex_ok (partitionOf cfgUnit) ⟨1/10, 1/10, 1/10⟩ 0 0 0
      hc hc hc
      (by rw [indexer_unit]; exact ⟨le_refl 0, by norm_num⟩)
      (by rw [indexer_unit]; exact ⟨le_refl 0, by norm_num⟩)
      (by rw [indexer_unit]; exact ⟨le_refl 0, by norm_num⟩)
    rw [this, indexer_unit]
    norm_num [GridContainerIndices.index]
  have hp1 : (partitionOf cfgUnit).pointIndex ⟨9/10, 9/10, 9/10⟩ = .ok 0 := by
    have hc : (partitionOf cfgUnit).cellNumber (9/10) ⟨0, 1⟩ = 0 := by
      rw [SpacePartition.cellNumber,
        show (partitionOf cfgUnit).cellSize = 1 from cellSize_unit,
        CoordRange.offset]
      exact_mod_cast truncToInt_nat_eq (n := 0) (by norm_num) (by norm_num)
    have := pointIndex_ok (partitionOf cfgUnit) ⟨9/10, 9/10, 9/10⟩ 0 0 0
      hc hc hc
      (by rw [indexer_unit]; exact ⟨le_refl 0, by norm_num⟩)
      (by rw [indexer_unit]; exact ⟨le_refl 0, by norm_num⟩)
      (by rw [indexer_unit]; exact ⟨le_refl 0, by norm_num⟩)
    rw [this, indexer_unit]
    norm_num [GridContainerIndices.index]
  rw [SpacePartition.fill, indexer_unit]
  show (partitionOf cfgUnit).fillFrom [[]]
    (enumerateFrom 0 ptsUnit) = .ok [[0, 1]]
  rw [show enumerateFrom 0 ptsUnit
      = [(0, ⟨1/10, 1/10, 1/10⟩), (1, ⟨9/10, 9/10, 9/10⟩)] from rfl]
  rw [SpacePartition.fillFrom, hp0]
  norm_num [List.getD]
  rw [SpacePartition.fillFrom, hp1]
  norm_num [List.getD]
  rw [SpacePartition.fillFrom]

lemma collect_unit : collectNonIsolated cfgUnit ptsUnit [[0, 1]] = [0, 1] := by
  rw [collectNonIsolated, indexer_unit]
  norm_num [GridContainerIndices.size, List.range_succ, List.getD,
    contained_unit]

lemma removeIsolated_unit : removeIsolatedPoints cfgUnit ptsUnit = .ok [0, 1] := by
  rw [removeIsolatedPoints, fill_unit]
  exact congrArg Except.ok collect_unit

lemma brute_unit : bruteRemoveIsolatedPoints cfgUnit ptsUnit = [] := by
  rw [bruteRemoveIsolatedPoints]
  norm_num [ptsUnit, List.filter, List.any, closeEnough, cfgUnit, List.getD]

/-! ### Evaluation at `cfgTwoA` and `cfgTwoB` -/

lemma dims_twoA :
    diceVolume cfgTwoA.rangeX cfgTwoA.rangeY cfgTwoA.rangeZ 1 = ⟨2, 2, 2⟩ := by
  simp only [diceVolume, cfgTwoA]
  norm_num
  apply ceilToNat_eq <;> norm_num [CoordRange.size]

lemma stop0_twoA : stopDoubling cfgTwoA 0 := by
  have hc : cellSizeAfter cfgTwoA 0 = 1 := by
    rw [cellSizeAfter, pow_zero, mul_one,
      show isolationRadius cfgTwoA = Real.sqrt (3/4) from rfl, mocs_34]
  exact Or.inr (by
    rw [hc, dims_twoA]
    norm_num [GridContainerIndices.size, sizeofCell, cfgTwoA])

lemma cellSize_twoA : computeCellSize cfgTwoA = 1 := by
  rw [computeCellSize_eq_init (by norm_num [cfgTwoA]) stop0_twoA,
    show isolationRadius cfgTwoA = Real.sqrt (3/4) from rfl, mocs_34]

lemma indexer_twoA : (partitionOf cfgTwoA).indexer = ⟨2, 2, 2⟩ := by
  rw [show (partitionOf cfgTwoA).indexer
      = diceVolume cfgTwoA.rangeX cfgTwoA.rangeY cfgTwoA.rangeZ
          (computeCellSize cfgTwoA) from rfl, cellSize_twoA, dims_twoA]

lemma contained_twoA : cellContainedInIsolationSphere cfgTwoA := by
  rw [cellContainedInIsolationSphere, cellSize_twoA,
    show isolationRadius cfgTwoA = Real.sqrt (3/4) from rfl, mocs_34]

lemma fill_twoA : (partitionOf cfgTwoA).fill ptsTwo = .ok cellsTwoA := by
  have hcell : ∀ c : ℝ, (1 : ℝ) ≤ c → c < 2 →
      (partitionOf cfgTwoA).cellNumber c ⟨0, 2⟩ = 1 := by
    intro c h1 h2
    rw [SpacePartition.cellNumber,
      show (partitionOf cfgTwoA).cellSize = 1 from cellSize_twoA,
      CoordRange.offset]
    exact_mod_cast truncToInt_nat_eq (n := 1) (by push_cast; linarith)
      (by push_cast; linarith)
  have hp0 : (partitionOf cfgTwoA).pointIndex ⟨11/10, 11/10, 11/10⟩ = .ok 7 := by
    have hc := hcell (11/10) (by norm_num) (by norm_num)
    have := pointIndex_ok (partitionOf cfgTwoA) ⟨11/10, 11/10, 11/10⟩ 1 1 1
      hc hc hc
      (by rw [indexer_twoA]; exact ⟨by norm_num, by norm_num⟩)
      (by rw [indexer_twoA]; exact ⟨by norm_num, by norm_num⟩)
      (by rw [indexer_twoA]; exact ⟨by norm_num, by norm_num⟩)
    rw [this, indexer_twoA]
    norm_num [GridContainerIndices.index]
  have hp1 : (partitionOf cfgTwoA).pointIndex ⟨19/10, 19/10, 19/10⟩ = .ok 7 := by
    have hc := hcell (19/10) (by norm_num) (by norm_num)
    have := pointIndex_ok (partitionOf cfgTwoA) ⟨19/10, 19/10, 19/10⟩ 1 1 1
      hc hc hc
      (by rw [indexer_twoA]; exact ⟨by norm_num, by norm_num⟩)
      (by rw [indexer_twoA]; exact ⟨by norm_num, by norm_num⟩)
      (by rw [indexer_twoA]; exact ⟨by norm_num, by norm_num⟩)
    rw [this, indexer_twoA]
    norm_num [GridContainerIndices.index]
  rw [SpacePartition.fill, indexer_twoA]
  show (partitionOf cfgTwoA).fillFrom [[], [], [], [], [], [], [], []]
    (enumerateFrom 0 ptsTwo) = .ok cellsTwoA
  rw [show enumerateFrom 0 ptsTwo
      = [(0, ⟨11/10, 11/10, 11/10⟩), (1, ⟨19/10, 19/10, 19/10⟩)] from rfl]
  rw [SpacePartition.fillFrom, hp0]
  show (partitionOf cfgTwoA).fillFrom [[], [], [], [], [], [], [], [0]]
    [(1, ⟨19/10, 19/10, 19/10⟩)] = .ok cellsTwoA
  rw [SpacePartition.fillFrom, hp1]
  show (partitionOf cfgTwoA).fillFrom [[], [], [], [], [], [], [], [0, 1]] []
    = .ok cellsTwoA
  rw [SpacePartition.fillFrom, cellsTwoA]

lemma collect_twoA : collectNonIsolated cfgTwoA ptsTwo cellsTwoA = [0, 1] := by
  rw [collectNonIsolated, indexer_twoA]
  norm_num [GridContainerIndices.size, List.range_succ, List.getD,
    contained_twoA, cellsTwoA]

lemma removeIsolated_twoA : removeIsolatedPoints cfgTwoA ptsTwo = .ok [0, 1] := by
  rw [removeIsolatedPoints, fill_twoA]
  exact congrArg Except.ok collect_twoA

lemma dims_twoB : diceVolume cfgTwoB.rangeX cfgTwoB.rangeY cfgTwoB.rangeZ (3/2)
    = ⟨2, 2, 2⟩ := by
  simp only [diceVolume, cfgTwoB]
  norm_num
  apply ceilToNat_eq <;> norm_num [CoordRange.size]

lemma stop0_twoB : stopDoubling cfgTwoB 0 := by
  have hc : cellSizeAfter cfgTwoB 0 = 3/2 := by
    rw [cellSizeAfter, pow_zero, mul_one,
      show isolationRadius cfgTwoB = Real.sqrt (27/16) from rfl, mocs_2716]
  exact Or.inr (by
    rw [hc, dims_twoB]
    norm_num [GridContainerIndices.size, sizeofCell, cfgTwoB])

lemma cellSize_twoB : computeCellSize cfgTwoB = 3/2 := by
  rw [computeCellSize_eq_init (by norm_num [cfgTwoB]) stop0_twoB,
    show isolationRadius cfgTwoB = Real.sqrt (27/16) from rfl, mocs_2716]

lemma indexer_twoB : (partitionOf cfgTwoB).indexer = ⟨2, 2, 2⟩ := by
  rw [show (partitionOf cfgTwoB).indexer
      = diceVolume cfgTwoB.rangeX cfgTwoB.rangeY cfgTwoB.rangeZ
          (computeCellSize cfgTwoB) from rfl, cellSize_twoB, dims_twoB]

lemma fill_twoB : (partitionOf cfgTwoB).fill ptsTwo = .ok cellsTwoB := by
  have hp0 : (partitionOf cfgTwoB).pointIndex ⟨11/10, 11/10, 11/10⟩ = .ok 0 := by
    have hc : (partitionOf cfgTwoB).cellNumber (11/10) ⟨0, 2⟩ = 0 := by
      rw [SpacePartition.cellNumber,
        show (partitionOf cfgTwoB).cellSize = 3/2 from cellSize_twoB,
        CoordRange.offset]
      exact_mod_cast truncToInt_nat_eq (n := 0) (by norm_num) (by norm_num)
    have := pointIndex_ok (partitionOf cfgTwoB) ⟨11/10, 11/10, 11/10⟩ 0 0 0
      hc hc hc
      (by rw [indexer_twoB]; exact ⟨by norm_num, by norm_num⟩)
      (by rw [indexer_twoB]; exact ⟨by norm_num, by norm_num⟩)
      (by rw [indexer_twoB]; exact ⟨by norm_num, by norm_num⟩)
    rw [this, indexer_twoB]
    norm_num [GridContainerIndices.index]
  have hp1 : (partitionOf cfgTwoB).pointIndex ⟨19/10, 19/10, 19/10⟩ = .ok 7 := by
    have hc : (partitionOf cfgTwoB).cellNumber (19/10) ⟨0, 2⟩ = 1 := by
      rw [SpacePartition.cellNumber,
        show (partitionOf cfgTwoB).cellSize = 3/2 from cellSize_twoB,
        CoordRange.offset]
      exact_mod_cast truncToInt_nat_eq (n := 1) (by norm_num) (by norm_num)
    have := pointIndex_ok (partitionOf cfgTwoB) ⟨19/10, 19/10, 19/10⟩ 1 1 1
      hc hc hc
      (by rw [indexer_twoB]; exact ⟨by norm_num, by norm_num⟩)
      (by rw [indexer_twoB]; exact ⟨by norm_num, by norm_num⟩)
      (by rw [indexer_twoB]; exact ⟨by norm_num, by norm_num⟩)
    rw [this, indexer_twoB]
    norm_num [GridContainerIndices.index]
  rw [SpacePartition.fill, indexer_twoB]
  show (partitionOf cfgTwoB).fillFrom [[], [], [], [], [], [], [], []]
    (enumerateFrom 0 ptsTwo) = .ok cellsTwoB
  rw [show enumerateFrom 0 ptsTwo
      = [(0, ⟨11/10, 11/10, 11/10⟩), (1, ⟨19/10, 19/10, 19/10⟩)] from rfl]
  rw [SpacePartition.fillFrom, hp0]
  show (partitionOf cfgTwoB).fillFrom [[0], [], [], [], [], [], [], []]
    [(1, ⟨19/10, 19/10, 19/10⟩)] = .ok cellsTwoB
  rw [SpacePartition.fillFrom, hp1]
  show (partitionOf cfgTwoB).fillFrom [[0], [], [], [], [], [], [], [1]] []
    = .ok cellsTwoB
  rw [SpacePartition.fillFrom, cellsTwoB]

/-- Every index stored in the `cfgTwoB` grid is 0 or 1. -/
lemma mem_cellsTwoB {n j : ℕ} (h : j ∈ cellsTwoB.getD n []) : j = 0 ∨ j = 1 := by
  rcases n with _ | _ | _ | _ | _ | _ | _ | _ | m <;>
    simp_all [cellsTwoB, List.getD]

/-- At the `cfgTwoB` radius the two points of `ptsTwo` are too far apart, so
each is isolated from the contents of every grid cell. -/
lemma isoFrom_twoB : ∀ i : ℕ, i < 2 → ∀ n : ℕ,
    isPointIsolatedFrom cfgTwoB ptsTwo i (cellsTwoB.getD n []) := by
  intro i hi n j hj hand
  obtain ⟨hclose, hne⟩ := hand
  interval_cases i <;> rcases mem_cellsTwoB hj with rfl | rfl <;>
    first
      | exact hne rfl
      | (revert hclose
         norm_num [closeEnough, ptsTwo, cfgTwoB, List.getD])

lemma isoW_twoB0 : ∀ (nl : List ℤ) (c : ℕ),
    isPointIsolatedWithinNeighborhood cfgTwoB ptsTwo cellsTwoB ⟨2, 2, 2⟩
      c 0 nl := by
  intro nl c ofs _ _
  exact isoFrom_twoB 0 (by norm_num) _

lemma isoW_twoB1 : ∀ (nl : List ℤ) (c : ℕ),
    isPointIsolatedWithinNeighborhood cfgTwoB ptsTwo cellsTwoB ⟨2, 2, 2⟩
      c 1 nl := by
  intro nl c ofs _ _
  exact isoFrom_twoB 1 (by norm_num) _

lemma contained_twoB : cellContainedInIsolationSphere cfgTwoB := by
  rw [cellContainedInIsolationSphere, cellSize_twoB,
    show isolationRadius cfgTwoB = Real.sqrt (27/16) from rfl, mocs_2716]

lemma collect_twoB : collectNonIsolated cfgTwoB ptsTwo cellsTwoB = [] := by
  rw [collectNonIsolated, indexer_twoB]
  have hg0 : (cellsTwoB[(0:ℕ)]?).getD [] = [0] := rfl
  have hg1 : (cellsTwoB[(1:ℕ)]?).getD [] = [] := rfl
  have hg2 : (cellsTwoB[(2:ℕ)]?).getD [] = [] := rfl
  have hg3 : (cellsTwoB[(3:ℕ)]?).getD [] = [] := rfl
  have hg4 : (cellsTwoB[(4:ℕ)]?).getD [] = [] := rfl
  have hg5 : (cellsTwoB[(5:ℕ)]?).getD [] = [] := rfl
  have hg6 : (cellsTwoB[(6:ℕ)]?).getD [] = [] := rfl
  have hg7 : (cellsTwoB[(7:ℕ)]?).getD [] = [1] := rfl
  norm_num [GridContainerIndices.size, List.range_succ, List.getD, hg0, hg1,
    hg2, hg3, hg4, hg5, hg6, hg7, isoW_twoB0, isoW_twoB1, List.filter]

lemma removeIsolated_twoB : removeIsolatedPoints cfgTwoB ptsTwo = .ok [] := by
  rw [removeIsolatedPoints, fill_twoB]
  exact congrArg Except.ok collect_twoB

/-! ### Counting lemmas for the neighbourhood list -/

lemma symRange_length (e : ℕ) : (symRange e).length = 2 * e + 1 := by
  rw [symRange, List.length_map, List.length_range]

lemma symRange_count_zero (e : ℕ) : (symRange e).count 0 = 1 := by
  have hinj : Function.Injective (fun k : ℕ => (k : ℤ) - (e : ℤ)) := by
    intro a b hab
    have h : (a : ℤ) - (e : ℤ) = (b : ℤ) - (e : ℤ) := hab
    omega
  have hnd : (symRange e).Nodup := by
    rw [symRange]
    exact (List.nodup_range _).map hinj
  have hm : (0 : ℤ) ∈ symRange e := by
    rw [symRange, List.mem_map]
    exact ⟨e, List.mem_range.mpr (by omega), by ring⟩
  exact List.count_eq_one_of_mem hnd hm

lemma length_filterMap_skip_zero (l : List ℤ) (f : ℤ → ℤ) :
    (l.filterMap fun c => if c = 0 then none else some (f c)).length
      = l.length - l.count 0 := by
  induction l with
  | nil => simp
  | cons a l ih =>
    have hc := List.count_le_length (0 : ℤ) l
    by_cases ha : a = 0
    · subst ha
      rw [List.filterMap_cons]
      rw [if_pos rfl]
      rw [ih, List.length_cons, List.count_cons_self]
      omega
    · rw [List.filterMap_cons]
      rw [if_neg ha]
      rw [List.length_cons, ih, List.length_cons,
        List.count_cons_of_ne (fun h => ha h.symm)]
      omega

lemma length_filterMap_no_skip (l : List ℤ) (f : ℤ → ℤ) :
    (l.filterMap fun c => some (f c)).length = l.length := by
  induction l with
  | nil => simp
  | cons a l ih => rw [List.filterMap_cons]; simp [ih]

lemma sum_map_const_nat (l : List ℤ) (y : ℕ) :
    (l.map fun _ => y).sum = y * l.length := by
  induction l with
  | nil => simp
  | cons a l ih => simp [ih, Nat.mul_succ]; ring

lemma sum_map_ite_zero (l : List ℤ) (x y : ℕ) (h : l.count 0 = 1) :
    (l.map fun b => if b = 0 then x else y).sum = x + y * (l.length - 1) := by
  induction l with
  | nil => simp at h
  | cons a l ih =>
    by_cases ha : a = 0
    · subst ha
      have h0 : l.count 0 = 0 := by
        rw [List.count_cons_self] at h
        omega
      have hall : ∀ b ∈ l, (if b = 0 then x else y) = y := by
        intro b hb
        have hbne : b ≠ 0 := by
          intro hb0
          subst hb0
          have := List.count_pos_iff.mpr hb
          omega
        simp [hbne]
      rw [List.map_cons, List.sum_cons, if_pos rfl,
        List.map_congr_left hall, sum_map_const_nat, List.length_cons]
      simp
    · have h1 : l.count 0 = 1 := by
        rw [List.count_cons_of_ne (fun hh => ha hh.symm)] at h
        exact h
      have hpos : 0 < l.length := by
        have hmem : (0 : ℤ) ∈ l := List.count_pos_iff.mp (by omega)
        exact List.length_pos.mpr (List.ne_nil_of_mem hmem)
      obtain ⟨m, hm⟩ : ∃ m, l.length = m + 1 := ⟨l.length - 1, by omega⟩
      rw [List.map_cons, List.sum_cons, if_neg ha, ih h1, List.length_cons,
        hm]
      simp [Nat.mul_succ]
      ring

lemma buildNeighborhood_length (ix : GridContainerIndices) (e : ℕ) :
    (buildNeighborhood ix e).length = (2 * e + 1) ^ 3 - 1 := by
  have hlen := symRange_length e
  have hcnt := symRange_count_zero e
  set n := 2 * e + 1 with hn
  have hinner : ∀ a b : ℤ,
      ((symRange e).filterMap fun c =>
        if a = 0 ∧ b = 0 ∧ c = 0 then none
        else some (ix.offset (0, 0, 0) (a, b, c))).length
      = if a = 0 ∧ b = 0 then n - 1 else n := by
    intro a b
    by_cases hab : a = 0 ∧ b = 0
    · rw [if_pos hab]
      obtain ⟨ha, hb⟩ := hab
      have heq : ((symRange e).filterMap fun c =>
          if a = 0 ∧ b = 0 ∧ c = 0 then none
          else some (ix.offset (0, 0, 0) (a, b, c)))
          = ((symRange e).filterMap fun c => if c = 0 then none
            else some (ix.offset (0, 0, 0) (a, b, c))) := by
        apply List.filterMap_congr
        intro c _
        by_cases hc : c = 0
        · simp [ha, hb, hc]
        · simp [hc]
      rw [heq, length_filterMap_skip_zero, hlen, hcnt]
    · rw [if_neg hab]
      have heq : ((symRange e).filterMap fun c =>
          if a = 0 ∧ b = 0 ∧ c = 0 then none
          else some (ix.offset (0, 0, 0) (a, b, c)))
          = ((symRange e).filterMap fun c =>
            some (ix.offset (0, 0, 0) (a, b, c))) := by
        apply List.filterMap_congr
        intro c _
        have hno : ¬(a = 0 ∧ b = 0 ∧ c = 0) :=
          fun ⟨h1, h2, _⟩ => hab ⟨h1, h2⟩
        simp [hno]
      rw [heq, length_filterMap_no_skip, hlen]
  have hmid : ∀ a : ℤ,
      (((symRange e).flatMap fun b =>
        (symRange e).filterMap fun c =>
          if a = 0 ∧ b = 0 ∧ c = 0 then none
          else some (ix.offset (0, 0, 0) (a, b, c))).length)
      = if a = 0 then n ^ 2 - 1 else n ^ 2 := by
    intro a
    rw [List.length_flatMap]
    by_cases ha : a = 0
    · rw [if_pos ha]
      have hmap : ((symRange e).map
          (List.length ∘ fun b => (symRange e).filterMap fun c =>
            if a = 0 ∧ b = 0 ∧ c = 0 then none
            else some (ix.offset (0, 0, 0) (a, b, c))))
          = ((symRange e).map fun b => if b = 0 then n - 1 else n) := by
        apply List.map_congr_left
        intro b _
        show ((symRange e).filterMap fun c =>
          if a = 0 ∧ b = 0 ∧ c = 0 then none
          else some (ix.offset (0, 0, 0) (a, b, c))).length
          = if b = 0 then n - 1 else n
        rw [hinner a b]
        by_cases hb : b = 0
        · rw [if_pos ⟨ha, hb⟩, if_pos hb]
        · rw [if_neg (fun h => hb h.2), if_neg hb]
      rw [hmap, sum_map_ite_zero _ _ _ hcnt, hlen]
      obtain ⟨m, hm⟩ : ∃ m, n = m + 1 := ⟨n - 1, by omega⟩
      rw [hm]
      have h1 : (m + 1) * (m + 1 - 1) = m * m + m := by simp; ring
      have h2 : (m + 1) ^ 2 = m * m + 2 * m + 1 := by ring
      rw [h1, h2]
      simp
      ring
    · rw [if_neg ha]
      have hmap : ((symRange e).map
          (List.length ∘ fun b => (symRange e).filterMap fun c =>
            if a = 0 ∧ b = 0 ∧ c = 0 then none
            else some (ix.offset (0, 0, 0) (a, b, c))))
          = ((symRange e).map fun _ => n) := by
        apply List.map_congr_left
        intro b _
        show ((symRange e).filterMap fun c =>
          if a = 0 ∧ b = 0 ∧ c = 0 then none
          else some (ix.offset (0, 0, 0) (a, b, c))).length = n
        rw [hinner a b, if_neg (fun h => ha h.1)]
      rw [hmap, sum_map_const_nat, hlen, pow_two]
  rw [buildNeighborhood, List.length_flatMap]
  have hmap : ((symRange e).map
      (List.length ∘ fun a => (symRange e).flatMap fun b =>
        (symRange e).filterMap fun c =>
          if a = 0 ∧ b = 0 ∧ c = 0 then none
          else some (ix.offset (0, 0, 0) (a, b, c))))
      = ((symRange e).map fun a => if a = 0 then n ^ 2 - 1 else n ^ 2) := by
    apply List.map_congr_left
    intro a _
    show (((symRange e).flatMap fun b =>
        (symRange e).filterMap fun c =>
          if a = 0 ∧ b = 0 ∧ c = 0 then none
          else some (ix.offset (0, 0, 0) (a, b, c))).length)
      = if a = 0 then n ^ 2 - 1 else n ^ 2
    exact hmid a
  rw [hmap, sum_map_ite_zero _ _ _ hcnt, hlen]
  obtain ⟨m, hm⟩ : ∃ m, n = m + 1 := ⟨n - 1, by omega⟩
  rw [hm]
  have h1 : (m + 1) ^ 2 - 1 + (m + 1) ^ 2 * (m + 1 - 1)
      = (m + 1) ^ 3 - 1 := by
    have e2 : (m + 1) ^ 2 = m * m + 2 * m + 1 := by ring
    have e3 : (m + 1) ^ 3 = (m * m + 2 * m + 1) * m + m * m + 2 * m + 1 := by
      ring
    rw [e2, e3]
    simp
    ring
  rw [h1]

/-! ### Evaluation at `partSmall` (out-of-volume scenario) -/

lemma indexer_partSmall : partSmall.indexer = ⟨1, 1, 1⟩ := dims_unit

lemma pointIndex_outside : partSmall.pointIndex ptOutside = .ok 0 := by
  have hx : partSmall.cellNumber (-1/2) ⟨0, 1⟩ = 0 := by
    rw [SpacePartition.cellNumber, show partSmall.cellSize = 1 from rfl,
      CoordRange.offset]
    exact truncToInt_negFrac (by norm_num) (by norm_num)
  have hyz : partSmall.cellNumber (1/2) ⟨0, 1⟩ = 0 := by
    rw [SpacePartition.cellNumber, show partSmall.cellSize = 1 from rfl,
      CoordRange.offset]
    exact_mod_cast truncToInt_nat_eq (n := 0) (by norm_num) (by norm_num)
  have := pointIndex_ok partSmall ptOutside 0 0 0 hx hyz hyz
    (by rw [indexer_partSmall]; exact ⟨le_refl 0, by norm_num⟩)
    (by rw [indexer_partSmall]; exact ⟨le_refl 0, by norm_num⟩)
    (by rw [indexer_partSmall]; exact ⟨le_refl 0, by norm_num⟩)
  rw [this, indexer_partSmall]
  norm_num [GridContainerIndices.index]

lemma fill_outside : partSmall.fill [ptOutside] = .ok [[0]] := by
  rw [SpacePartition.fill, indexer_partSmall]
  show partSmall.fillFrom [[]] (enumerateFrom 0 [ptOutside]) = .ok [[0]]
  rw [show enumerateFrom 0 [ptOutside] = [(0, ptOutside)] from rfl]
  rw [SpacePartition.fillFrom, pointIndex_outside]
  show partSmall.fillFrom [[0]] [] = .ok [[0]]
  rw [SpacePartition.fillFrom]

/-! ### Evaluation at `cfgUnit` with a single point -/

lemma fill_one : (partitionOf cfgUnit).fill ptsOne = .ok [[0]] := by
  have hp : (partitionOf cfgUnit).pointIndex ⟨1/2, 1/2, 1/2⟩ = .ok 0 := by
    have hc : (partitionOf cfgUnit).cellNumber (1/2) ⟨0, 1⟩ = 0 := by
      rw [SpacePartition.cellNumber,
        show (partitionOf cfgUnit).cellSize = 1 from cellSize_unit,
        CoordRange.offset]
      exact_mod_cast truncToInt_nat_eq (n := 0) (by norm_num) (by norm_num)
    have := pointIndex_ok (partitionOf cfgUnit) ⟨1/2, 1/2, 1/2⟩ 0 0 0
      hc hc hc
      (by rw [indexer_unit]; exact ⟨le_refl 0, by norm_num⟩)
      (by rw [indexer_unit]; exact ⟨le_refl 0, by norm_num⟩)
      (by rw [indexer_unit]; exact ⟨le_refl 0, by norm_num⟩)
    rw [this, indexer_unit]
    norm_num [GridContainerIndices.index]
  rw [SpacePartition.fill, indexer_unit]
  show (partitionOf cfgUnit).fillFrom [[]] (enumerateFrom 0 ptsOne) = .ok [[0]]
  rw [show enumerateFrom 0 ptsOne = [(0, ⟨1/2, 1/2, 1/2⟩)] from rfl]
  rw [SpacePartition.fillFrom, hp]
  show (partitionOf cfgUnit).fillFrom [[0]] [] = .ok [[0]]
  rw [SpacePartition.fillFrom]

lemma isoW_one : ∀ (nl : List ℤ) (c : ℕ),
    isPointIsolatedWithinNeighborhood cfgUnit ptsOne [[0]] ⟨1, 1, 1⟩
      c 0 nl := by
  intro nl c ofs _ _ j hj hand
  obtain ⟨_, hne⟩ := hand
  have hj01 : j = 0 := by
    rcases hn : ((c : ℤ) + ofs).toNat with _ | m
    · rw [hn] at hj
      simpa using hj
    · rw [hn] at hj
      rcases m with _ | m' <;> simp_all [List.getD]
  exact hne hj01

lemma collect_one : collectNonIsolated cfgUnit ptsOne [[0]] = [] := by
  rw [collectNonIsolated, indexer_unit]
  have hg0 : (([[0]] : List (List ℕ))[(0:ℕ)]?).getD [] = [0] := rfl
  norm_num [GridContainerIndices.size, List.range_succ, List.getD, hg0,
    isoW_one, List.filter]

lemma removeIsolated_one : removeIsolatedPoints cfgUnit ptsOne = .ok [] := by
  rw [removeIsolatedPoints, fill_one]
  exact congrArg Except.ok collect_one

/-! ### Invariants of `fill` and the main loop (for C10) -/

/-- Total number of occurrences of index `i` over all grid cells. -/
def countAll (cells : List (List ℕ)) (i : ℕ) : ℕ :=
  (cells.map (List.count i)).sum

lemma getD_set (cells : List (List ℕ)) (m : ℕ) (x : List ℕ) (c : ℕ) :
    (cells.set m x).getD c []
      = if c = m ∧ m < cells.length then x else cells.getD c [] := by
  rw [List.getD_eq_getElem?_getD, List.getD_eq_getElem?_getD,
    List.getElem?_set]
  by_cases hcm : m = c
  · subst hcm
    by_cases hlt : m < cells.length
    · simp [hlt]
    · simp [hlt, List.getElem?_eq_none (by omega : cells.length ≤ m)]
  · rw [if_neg (show ¬(c = m ∧ m < cells.length) from fun h => hcm h.1.symm),
      if_neg hcm]

lemma countAll_set_append (cells : List (List ℕ)) (m : ℕ) (k i : ℕ) :
    countAll (cells.set m (cells.getD m [] ++ [k])) i
      ≤ countAll cells i + (if k = i then 1 else 0) := by
  induction cells generalizing m with
  | nil => simp [countAll]
  | cons c cs ih =>
    cases m with
    | zero =>
      simp only [countAll, List.getD_cons_zero, List.set_cons_zero,
        List.map_cons, List.sum_cons, List.count_append]
      have : List.count i [k] = if k = i then 1 else 0 := by
        rw [List.count_singleton]
        simp [beq_iff_eq]
      omega
    | succ m =>
      simp only [countAll, List.getD_cons_succ, List.set_cons_succ,
        List.map_cons, List.sum_cons]
      have := ih m
      simp only [countAll] at this
      omega

lemma fillFrom_length (p : SpacePartition) (l : List (ℕ × Point)) :
    ∀ cells cells', p.fillFrom cells l = .ok cells' →
      cells'.length = cells.length := by
  induction l with
  | nil =>
    intro cells cells' h
    rw [SpacePartition.fillFrom] at h
    simp only [Except.ok.injEq] at h
    rw [← h]
  | cons a rest ih =>
    intro cells cells' h
    obtain ⟨k, pt⟩ := a
    rw [SpacePartition.fillFrom] at h
    cases hpi : p.pointIndex pt with
    | error e => rw [hpi] at h; exact absurd h (by simp)
    | ok idx =>
      rw [hpi] at h
      have := ih _ _ h
      rwa [List.length_set] at this

lemma fillFrom_countAll (p : SpacePartition) (l : List (ℕ × Point)) :
    ∀ cells cells', p.fillFrom cells l = .ok cells' → ∀ i : ℕ,
      countAll cells' i ≤ countAll cells i + (l.map Prod.fst).count i := by
  induction l with
  | nil =>
    intro cells cells' h i
    rw [SpacePartition.fillFrom] at h
    simp only [Except.ok.injEq] at h
    simp [← h]
  | cons a rest ih =>
    intro cells cells' h i
    obtain ⟨k, pt⟩ := a
    rw [SpacePartition.fillFrom] at h
    cases hpi : p.pointIndex pt with
    | error e => rw [hpi] at h; exact absurd h (by simp)
    | ok idx =>
      rw [hpi] at h
      have h1 := ih _ _ h i
      have h2 := countAll_set_append cells idx.toNat k i
      have h3 : (((k, pt) :: rest).map Prod.fst).count i
          = (rest.map Prod.fst).count i + (if k = i then 1 else 0) := by
        simp only [List.map_cons, List.count_cons]
        simp [beq_iff_eq]
      omega

lemma fillFrom_mem (p : SpacePartition) (l : List (ℕ × Point)) :
    ∀ cells cells', p.fillFrom cells l = .ok cells' → ∀ c i,
      i ∈ cells'.getD c [] →
      i ∈ cells.getD c [] ∨ i ∈ l.map Prod.fst := by
  induction l with
  | nil =>
    intro cells cells' h c i hmem
    rw [SpacePartition.fillFrom] at h
    simp only [Except.ok.injEq] at h
    exact Or.inl (h ▸ hmem)
  | cons a rest ih =>
    intro cells cells' h c i hmem
    obtain ⟨k, pt⟩ := a
    rw [SpacePartition.fillFrom] at h
    cases hpi : p.pointIndex pt with
    | error e => rw [hpi] at h; exact absurd h (by simp)
    | ok idx =>
      rw [hpi] at h
      rcases ih _ _ h c i hmem with hin | hin
      · rw [getD_set] at hin
        by_cases hc : c = idx.toNat ∧ idx.toNat < cells.length
        · obtain ⟨hceq, hlt⟩ := hc
          subst hceq
          rw [if_pos ⟨rfl, hlt⟩] at hin
          rcases List.mem_append.mp hin with hold | hnew
          · exact Or.inl hold
          · simp only [List.mem_singleton] at hnew
            subst hnew
            exact Or.inr (by simp)
        · rw [if_neg hc] at hin
          exact Or.inl hin
      · exact Or.inr (by simp [hin])

lemma enumerateFrom_map_fst (k : ℕ) (l : List Point) :
    (enumerateFrom k l).map Prod.fst = List.range' k l.length := by
  induction l generalizing k with
  | nil => simp [enumerateFrom]
  | cons pt pts ih =>
    rw [enumerateFrom, List.map_cons, List.length_cons, List.range'_succ,
      ih (k + 1)]

lemma getD_replicate_nil (n c : ℕ) :
    ((List.replicate n ([] : List ℕ)).getD c []) = [] := by
  induction n generalizing c with
  | zero => simp
  | succ n ih =>
    cases c with
    | zero => simp [List.replicate_succ]
    | succ c => simp [List.replicate_succ, List.getD_cons_succ, ih]

lemma countAll_replicate_nil (n i : ℕ) :
    countAll (List.replicate n []) i = 0 := by
  induction n with
  | zero => simp [countAll]
  | succ n ih =>
    simp only [countAll, List.replicate_succ, List.map_cons, List.sum_cons]
    simpa [countAll] using ih

lemma sum_count_getD (cells : List (List ℕ)) (i : ℕ) :
    (((List.range cells.length).map fun c => (cells.getD c []).count i).sum)
      = countAll cells i := by
  induction cells with
  | nil => simp [countAll]
  | cons c cs ih =>
    rw [List.length_cons, List.range_succ_eq_map, List.map_cons,
      List.sum_cons, List.map_map]
    have hmap : ((List.range cs.length).map
        ((fun c' => (((c :: cs).getD c' []).count i)) ∘ Nat.succ))
        = (List.range cs.length).map fun c' => ((cs.getD c' []).count i) := by
      apply List.map_congr_left
      intro a _
      show (((c :: cs).getD (a + 1) []).count i) = ((cs.getD a []).count i)
      rw [List.getD_cons_succ]
    rw [hmap, ih]
    simp [countAll, List.getD_cons_zero]

/-- Every index collected by the main loop from grid `cells` occurs in some
cell, and its multiplicity is bounded by its total multiplicity in the
grid. -/
lemma collect_count_le (cfg : Configuration) (pts : List Point)
    (cells : List (List ℕ)) (i : ℕ) :
    (collectNonIsolated cfg pts cells).count i
      ≤ (((List.range (partitionOf cfg).indexer.size).map
          fun c => (cells.getD c []).count i).sum) := by
  rw [collectNonIsolated, List.count_flatMap]
  apply List.sum_le_sum
  intro c _
  simp only [Function.comp]
  split_ifs with h
  · exact le_refl _
  · exact List.Sublist.count_le (List.filter_sublist _) i

lemma collect_mem (cfg : Configuration) (pts : List Point)
    (cells : List (List ℕ)) (i : ℕ)
    (h : i ∈ collectNonIsolated cfg pts cells) :
    ∃ c, i ∈ cells.getD c [] := by
  rw [collectNonIsolated, List.mem_flatMap] at h
  obtain ⟨c, _, hc⟩ := h
  refine ⟨c, ?_⟩
  by_cases hfast : cellContainedInIsolationSphere cfg ∧
      1 < (cells.getD c []).length
  · rw [if_pos hfast] at hc
    exact hc
  · rw [if_neg hfast] at hc
    exact List.mem_of_mem_filter hc

/-! ## Claim theorems -/

/-- C1: the claim states `maximumOptimalCellSize(radius) = radius / sqrt(3)`,
the largest cell edge such that any two points of a cell are within `radius`
(cube diagonal ≤ radius).  The code instead computes
`radius * 2 / sqrt(3)`: at radius 1 it returns `2 / sqrt(3) ≠ 1 / sqrt(3)`,
and the squared diagonal of a cube with the returned edge is
`3 * (2/sqrt(3))^2 = 4 > 1 = radius²`, so the claimed guarantee fails for
the returned value. -/
theorem C1_maximumOptimalCellSize_value :
    maximumOptimalCellSize 1 = 2 / Real.sqrt 3 ∧
    maximumOptimalCellSize 1 ≠ 1 / Real.sqrt 3 ∧
    3 * (maximumOptimalCellSize 1) ^ 2 = 4 := by
  refine ⟨by rw [maximumOptimalCellSize]; ring, ?_, ?_⟩
  · rw [maximumOptimalCellSize]
    intro h
    rw [div_eq_div_iff sqrt3_ne sqrt3_ne] at h
    have h3 := sqrt3_pos
    nlinarith [h]
  · rw [maximumOptimalCellSize, div_pow, Real.sq_sqrt (by norm_num : (0:ℝ) ≤ 3)]
    norm_num

/-- C3 counterexample: for the degenerate range `[5,5]` and cell edge 1, the
grid has zero cells on that axis, not at least one:
`ceil(0 / 1) = 0`. -/
theorem C3_counterexample :
    (diceVolume ⟨5, 5⟩ ⟨0, 1⟩ ⟨0, 1⟩ 1).dimX = 0 ∧
    ¬ 1 ≤ (diceVolume ⟨5, 5⟩ ⟨0, 1⟩ ⟨0, 1⟩ 1).dimX := by
  constructor
  · norm_num [diceVolume, CoordRange.size]
  · norm_num [diceVolume, CoordRange.size]

/-- C3 amended: for every axis whose configured range is degenerate
(`size() == 0`) and every positive cell edge length, the grid built over the
volume has exactly zero cells along that axis (`ceil(0 / cellEdge) = 0`),
not at least one. -/
theorem C3_degenerate_axis_zero_cells
    (rX rY rZ : CoordRange) (cellEdge : ℝ) (hpos : 0 < cellEdge) :
    (rX.size = 0 → (diceVolume rX rY rZ cellEdge).dimX = 0) ∧
    (rY.size = 0 → (diceVolume rX rY rZ cellEdge).dimY = 0) ∧
    (rZ.size = 0 → (diceVolume rX rY rZ cellEdge).dimZ = 0) := by
  refine ⟨fun h => ?_, fun h => ?_, fun h => ?_⟩ <;>
    simp [diceVolume, h]

/-- C3 witness: the amended statement at the degenerate range `[5,5]`. -/
theorem C3_degenerate_axis_zero_cells_witness :
    (0:ℝ) < 1 ∧ (CoordRange.size ⟨5, 5⟩ = 0 →
      (diceVolume ⟨5, 5⟩ ⟨0, 1⟩ ⟨0, 1⟩ 1).dimX = 0) :=
  ⟨by norm_num,
   (C3_degenerate_axis_zero_cells ⟨5, 5⟩ ⟨0, 1⟩ ⟨0, 1⟩ 1 (by norm_num)).1⟩

/-- C4 counterexample: for `neighExtent = 1` on a 2×2×2 grid with
`cellContainedInIsolationSphere` false, the claim predicts
`(2·1+1)³ - 1 + 1 = 27` entries with a single zero offset at the front; the
code's `neighList.insert(neighList.begin(), { 0, 0, 0 })` inserts an
initializer list of three zero offsets into the vector of flat offsets, so
the list has 29 entries and starts with three zeros. -/
theorem C4_counterexample :
    (neighborhoodList ⟨2, 2, 2⟩ 1 False).length = 29 ∧
    (neighborhoodList ⟨2, 2, 2⟩ 1 False).length ≠ (2 * 1 + 1) ^ 3 - 1 + 1 ∧
    (neighborhoodList ⟨2, 2, 2⟩ 1 False).take 3 = [0, 0, 0] := by
  have hlist : neighborhoodList ⟨2, 2, 2⟩ 1 False
      = 0 :: 0 :: 0 :: buildNeighborhood ⟨2, 2, 2⟩ 1 :=
    if_neg not_false
  have hbase : (buildNeighborhood ⟨2, 2, 2⟩ 1).length = 26 := by
    rw [buildNeighborhood_length]
    norm_num
  refine ⟨?_, ?_, ?_⟩
  · rw [hlist]
    simp [hbase]
  · rw [hlist]
    simp [hbase]
  · rw [hlist]
    rfl

/-- C4 amended: the base neighbourhood list built by `buildNeighborhood`
holds exactly `(2·neighExtent+1)³ - 1` offsets (the zero offset excluded);
when `cellContainedInIsolationSphere` is false, THREE zero offsets (the
elements of the initializer list `{ 0, 0, 0 }`) are additionally placed at
the front, giving `(2·neighExtent+1)³ - 1 + 3` entries in total. -/
theorem C4_neighborhood_size (indexer : GridContainerIndices)
    (neighExtent : ℕ) (contained : Prop) (hnc : ¬ contained) :
    (buildNeighborhood indexer neighExtent).length
      = (2 * neighExtent + 1) ^ 3 - 1 ∧
    neighborhoodList indexer neighExtent contained
      = 0 :: 0 :: 0 :: buildNeighborhood indexer neighExtent ∧
    (neighborhoodList indexer neighExtent contained).length
      = (2 * neighExtent + 1) ^ 3 - 1 + 3 := by
  have hbase := buildNeighborhood_length indexer neighExtent
  have hlist : neighborhoodList indexer neighExtent contained
      = 0 :: 0 :: 0 :: buildNeighborhood indexer neighExtent :=
    if_neg hnc
  exact ⟨hbase, hlist, by rw [hlist]; simp [hbase]⟩

/-- C4 witness: the amended statement at extent 1 on a 2×2×2 grid. -/
theorem C4_neighborhood_size_witness :
    (¬ False) ∧
    (buildNeighborhood ⟨2, 2, 2⟩ 1).length = (2 * 1 + 1) ^ 3 - 1 ∧
    neighborhoodList ⟨2, 2, 2⟩ 1 False
      = 0 :: 0 :: 0 :: buildNeighborhood ⟨2, 2, 2⟩ 1 ∧
    (neighborhoodList ⟨2, 2, 2⟩ 1 False).length = (2 * 1 + 1) ^ 3 - 1 + 3 :=
  ⟨not_false, C4_neighborhood_size ⟨2, 2, 2⟩ 1 False not_false⟩

/-- C5: `validateConfiguration` aggregates one error report per invalid
field (negative radius², each invalid axis range) instead of stopping at
the first problem; in particular the configuration with `radius² = -1` and
`rangeX = {5, -5}` (other fields valid) yields exactly 2 errors. -/
theorem C5_validateConfiguration_aggregates (cfg : Configuration) :
    (validateConfiguration cfg).length =
      (if cfg.radius2 < 0 then 1 else 0) +
      (if cfg.rangeX.valid then 0 else 1) +
      (if cfg.rangeY.valid then 0 else 1) +
      (if cfg.rangeZ.valid then 0 else 1) ∧
    (validateConfiguration ⟨⟨5, -5⟩, ⟨0, 1⟩, ⟨0, 1⟩, -1, 100 * 1048576⟩).length
      = 2 := by
  constructor
  · rw [validateConfiguration]
    split_ifs <;> simp_all
  · norm_num [validateConfiguration, CoordRange.valid]

/-- C2: on the input `ptsUnit` (two points of squared distance 1.92 inside
`[0,1]^3`, isolation radius² = 3/4), the optimized path puts both points in
the single grid cell and the fast path marks both non-isolated, while the
brute-force oracle reports both isolated: the sorted outputs `[0, 1]` and
`[]` differ, contradicting the equivalence asserted by the repository's own
random test. -/
theorem C2_optimized_diverges_from_oracle :
    removeIsolatedPoints cfgUnit ptsUnit = .ok [0, 1] ∧
    bruteRemoveIsolatedPoints cfgUnit ptsUnit = [] ∧
    ([0, 1] : List ℕ) ≠ [] :=
  ⟨removeIsolated_unit, brute_unit, by simp⟩

/-- C6: a point at `x = -1/2`, outside the configured range `[0,1]` on the
x axis, is silently binned into cell 0 by `pointIndex` and `fill` (the C++
double→integer cast truncates `-1/2` toward zero), so filling does NOT fail
for every out-of-volume point as the claim states. -/
theorem C6_out_of_volume_point_accepted :
    ¬ CoordRange.contains ⟨0, 1⟩ ptOutside.x ∧
    partSmall.pointIndex ptOutside = .ok 0 ∧
    partSmall.fill [ptOutside] = .ok [[0]] :=
  ⟨by norm_num [CoordRange.contains, ptOutside], pointIndex_outside,
    fill_outside⟩

/-- C8: increasing radius² with everything else unchanged can strictly
decrease the number of returned indices: on `ptsTwo`, the configuration
`cfgTwoA` (radius² = 3/4) returns two indices via the fast path, while
`cfgTwoB` (same volume and memory, radius² = 27/16) returns none, because
the larger cell size splits the pair across two cells where the exact
distance test correctly rejects them. -/
theorem C8_radius_monotonicity_fails :
    cfgTwoA.radius2 < cfgTwoB.radius2 ∧
    cfgTwoA.rangeX = cfgTwoB.rangeX ∧
    cfgTwoA.rangeY = cfgTwoB.rangeY ∧
    cfgTwoA.rangeZ = cfgTwoB.rangeZ ∧
    cfgTwoA.maxMemory = cfgTwoB.maxMemory ∧
    removeIsolatedPoints cfgTwoA ptsTwo = .ok [0, 1] ∧
    removeIsolatedPoints cfgTwoB ptsTwo = .ok [] :=
  ⟨by norm_num [cfgTwoA, cfgTwoB], rfl, rfl, rfl, rfl,
    removeIsolated_twoA, removeIsolated_twoB⟩

/-- C7: two distinct input points at squared distance exactly `radius²` are
both reported non-isolated by the brute-force reference (which defines the
algorithm's semantics), because `closeEnough` compares squared distance
against `radius²` with inclusive `≤`. -/
theorem C7_boundary_inclusive (cfg : Configuration) (pts : List Point)
    (i j : ℕ) (hij : i ≠ j) (hi : i < pts.length) (hj : j < pts.length)
    (hdist : ((pts.getD i default).x - (pts.getD j default).x) ^ 2
      + ((pts.getD i default).y - (pts.getD j default).y) ^ 2
      + ((pts.getD i default).z - (pts.getD j default).z) ^ 2
      = cfg.radius2) :
    i ∈ bruteRemoveIsolatedPoints cfg pts ∧
    j ∈ bruteRemoveIsolatedPoints cfg pts ∧
    closeEnough cfg (pts.getD i default) (pts.getD j default) := by
  have hc1 : closeEnough cfg (pts.getD i default) (pts.getD j default) :=
    le_of_eq hdist
  have hc2 : closeEnough cfg (pts.getD j default) (pts.getD i default) := by
    rw [closeEnough, ← hdist]
    ring_nf
    exact le_refl _
  refine ⟨?_, ?_, hc1⟩
  · rw [bruteRemoveIsolatedPoints, List.mem_filter]
    refine ⟨List.mem_range.mpr hi, List.any_eq_true.mpr ?_⟩
    exact ⟨j, List.mem_range.mpr hj, decide_eq_true ⟨fun h => hij h.symm, hc1⟩⟩
  · rw [bruteRemoveIsolatedPoints, List.mem_filter]
    refine ⟨List.mem_range.mpr hj, List.any_eq_true.mpr ?_⟩
    exact ⟨i, List.mem_range.mpr hi, decide_eq_true ⟨hij, hc2⟩⟩

/-- C7 witness: two points at distance exactly 1 with `radius² = 1`. -/
theorem C7_boundary_inclusive_witness :
    (0 : ℕ) ≠ 1 ∧
    0 ∈ bruteRemoveIsolatedPoints
      ⟨⟨0, 1⟩, ⟨0, 1⟩, ⟨0, 1⟩, 1, 100 * 1048576⟩
      [⟨0, 0, 0⟩, ⟨1, 0, 0⟩] ∧
    1 ∈ bruteRemoveIsolatedPoints
      ⟨⟨0, 1⟩, ⟨0, 1⟩, ⟨0, 1⟩, 1, 100 * 1048576⟩
      [⟨0, 0, 0⟩, ⟨1, 0, 0⟩] := by
  have h := C7_boundary_inclusive
    ⟨⟨0, 1⟩, ⟨0, 1⟩, ⟨0, 1⟩, 1, 100 * 1048576⟩
    [⟨0, 0, 0⟩, ⟨1, 0, 0⟩] 0 1
    (by norm_num) (by norm_num) (by norm_num)
    (by norm_num [List.getD])
  exact ⟨by norm_num, h.1, h.2.1⟩

/-- C10: whenever `removeIsolatedPoints` returns a result (in particular
for every input whose points are accepted by the grid), every returned
index is a valid position of the input sequence and no index is returned
twice: each point is stored in exactly one grid cell, and the main loop
emits each cell's stored indices at most once. -/
theorem C10_result_indices_bounded_nodup (cfg : Configuration)
    (pts : List Point) (res : List ℕ)
    (h : removeIsolatedPoints cfg pts = .ok res) :
    (∀ i ∈ res, i < pts.length) ∧ res.Nodup := by
  rw [removeIsolatedPoints] at h
  cases hfill : (partitionOf cfg).fill pts with
  | error e => rw [hfill] at h; exact absurd h (by simp)
  | ok cells =>
    rw [hfill] at h
    simp only [Except.ok.injEq] at h
    subst h
    rw [SpacePartition.fill] at hfill
    have hlen : cells.length = (partitionOf cfg).indexer.size := by
      have := fillFrom_length _ _ _ _ hfill
      rwa [List.length_replicate] at this
    constructor
    · intro i hi
      obtain ⟨c, hc⟩ := collect_mem cfg pts cells i hi
      rcases fillFrom_mem _ _ _ _ hfill c i hc with h0 | h0
      · rw [getD_replicate_nil] at h0
        exact absurd h0 (List.not_mem_nil i)
      · rw [enumerateFrom_map_fst] at h0
        obtain ⟨t, ht, hti⟩ := List.mem_range'.mp h0
        omega
    · rw [List.nodup_iff_count_le_one]
      intro i
      have h1 := collect_count_le cfg pts cells i
      rw [← hlen, sum_count_getD] at h1
      have h2 := fillFrom_countAll _ _ _ _ hfill i
      rw [countAll_replicate_nil, enumerateFrom_map_fst] at h2
      have h3 : (List.range' 0 pts.length).count i ≤ 1 :=
        List.nodup_iff_count_le_one.mp (List.nodup_range' _ _) i
      omega

/-- C10 witness: the single-point run returns the empty index list, which
is within bounds and duplicate-free. -/
theorem C10_result_indices_bounded_nodup_witness :
    removeIsolatedPoints cfgUnit ptsOne = .ok [] ∧
    (∀ i ∈ ([] : List ℕ), i < ptsOne.length) ∧
    ([] : List ℕ).Nodup :=
  ⟨removeIsolated_one,
   (C10_result_indices_bounded_nodup cfgUnit ptsOne [] removeIsolated_one).1,
   (C10_result_indices_bounded_nodup cfgUnit ptsOne [] removeIsolated_one).2⟩

/-- C9: the flat-index delta computed by `GridContainerIndices::offset`
depends only on the componentwise difference of the two cell identifiers:
`offset(o1, o1 + d) = offset(o2, o2 + d)` for every origin and delta, so a
single neighbour offset list is valid for every origin cell. -/
theorem C9_offset_origin_independent (g : GridContainerIndices)
    (o1 o2 d : ℤ × ℤ × ℤ) :
    g.offset o1 (o1 + d) = g.offset o2 (o2 + d) := by
  simp only [GridContainerIndices.offset, GridContainerIndices.index,
    Prod.fst_add, Prod.snd_add]
  ring

end
